import Mathlib

/-!
Verification development for the Tesla stock-analysis repository.

The repository's Monte Carlo simulation and financial-metrics engine
(the Python backend service) is not present in the source tree that was
made available; only its README, configuration, deployment scripts and
the React dashboard page are.  The engine is therefore modelled here
from the specification's own description (return/volatility estimation,
geometric Brownian motion path simulation, aggregation into mean path
and percentile bands, and the risk/performance metrics), over the real
numbers in place of IEEE floating point.  Randomness is modelled by an
explicit stream of draws `Z : ℕ → ℕ → ℝ` indexed by path and step, the
way a seeded generator supplies them.

The dashboard's polling logic (`fetchData` in
`frontend/src/pages/index.js`) is present in the source tree and is
embedded directly from that code.
-/

namespace TslaMC

/-- Modelled from the spec: arithmetic mean of a list of reals (the
empty list yields `0 / 0 = 0` in Lean's real division). -/
noncomputable def meanR (l : List ℝ) : ℝ := l.sum / l.length

/-- Modelled from the spec: per-period log returns
`r_t = ln (P_t / P_{t-1})` of a price series; the backend source
computing them is missing from the tree. -/
noncomputable def logReturns (prices : List ℝ) : List ℝ :=
  List.zipWith (fun p q => Real.log (q / p)) prices prices.tail

/-- Modelled from the spec: drift estimate, the mean of the log
returns. -/
noncomputable def drift (prices : List ℝ) : ℝ := meanR (logReturns prices)

/-- Modelled from the spec: population variance of a list of reals. -/
noncomputable def popVariance (l : List ℝ) : ℝ :=
  meanR (l.map (fun x => (x - meanR l) ^ 2))

/-- Modelled from the spec: population standard deviation. -/
noncomputable def stdevR (l : List ℝ) : ℝ := Real.sqrt (popVariance l)

/-- Modelled from the spec: volatility estimate, the (population)
standard deviation of the log returns, un-annualized. -/
noncomputable def volatility (prices : List ℝ) : ℝ := stdevR (logReturns prices)

/-- Last observed price of the input series (0 for an empty series;
the engine validates non-emptiness before using it). -/
noncomputable def lastPrice (prices : List ℝ) : ℝ := prices.getLastD 0

/-- Sort a list of reals ascending (the empirical-percentile helper of
the modelled engine). -/
noncomputable def sortR (l : List ℝ) : List ℝ := List.insertionSort (· ≤ ·) l

/-- Index into a sorted sample of size `n` for the `q`-th percentile,
nearest-rank method, clamped into bounds. -/
def pIndex (q : ℚ) (n : ℕ) : ℕ := min (n - 1) ((⌈q * n / 100⌉).toNat - 1)

/-- Modelled from the spec: empirical `q`-th percentile of a sample,
computed directly from the sorted sample. -/
noncomputable def percentile (q : ℚ) (l : List ℝ) : ℝ :=
  (sortR l).getD (pIndex q l.length) 0

/-- Modelled from the spec: one multiplicative GBM step
`P * exp ((drift − volatility²/2) + volatility · z)`. -/
noncomputable def gbmStep (dr vol z p : ℝ) : ℝ :=
  p * Real.exp ((dr - vol ^ 2 / 2) + vol * z)

/-- Modelled from the spec: price after `t` GBM steps from `s0`, the
`t`-th step consuming the draw `z (t-1)`. -/
noncomputable def pathPrice (s0 dr vol : ℝ) (z : ℕ → ℝ) : ℕ → ℝ
  | 0 => s0
  | t + 1 => gbmStep dr vol (z t) (pathPrice s0 dr vol z t)

/-- Modelled from the spec: one simulated path, the `T` future prices
after successive GBM steps (the start price itself is not an element). -/
noncomputable def simPath (s0 dr vol : ℝ) (z : ℕ → ℝ) (T : ℕ) : List ℝ :=
  (List.range T).map (fun t => pathPrice s0 dr vol z (t + 1))

/-- Modelled from the spec: the `N` independent simulated paths, path
`i` consuming the draw stream `Z i`, all starting from the last
observed price with drift and volatility estimated from the input
series. -/
noncomputable def simPaths (prices : List ℝ) (Z : ℕ → ℕ → ℝ) (N T : ℕ) :
    List (List ℝ) :=
  (List.range N).map
    (fun i => simPath (lastPrice prices) (drift prices) (volatility prices) (Z i) T)

/-- Cross-path distribution of simulated prices at time step `t`. -/
noncomputable def stepValues (paths : List (List ℝ)) (t : ℕ) : List ℝ :=
  paths.map (fun p => p.getD t 0)

/-- Simulation summary: mean path and the lower/upper confidence
bands, one entry per future time step. -/
structure SimResult where
  mean_path : List ℝ
  lower : List ℝ
  upper : List ℝ

/-- Modelled from the spec: aggregation of the paths into the mean and
the two percentile bounds per time step (for confidence `c` the bounds
are the `(100−c)/2`-th and `(100+c)/2`-th percentiles). -/
noncomputable def aggregate (paths : List (List ℝ)) (conf : ℚ) (T : ℕ) : SimResult :=
  { mean_path := (List.range T).map (fun t => meanR (stepValues paths t))
    lower := (List.range T).map (fun t => percentile ((100 - conf) / 2) (stepValues paths t))
    upper := (List.range T).map (fun t => percentile ((100 + conf) / 2) (stepValues paths t)) }

/-- Modelled from the spec: the full simulation, `N` paths over
horizon `T` summarized per step. -/
noncomputable def simulate (prices : List ℝ) (Z : ℕ → ℕ → ℝ) (N T : ℕ) (conf : ℚ) :
    SimResult :=
  aggregate (simPaths prices Z N T) conf T

/-- Annualization factor `sqrt 252` for daily statistics. -/
noncomputable def annFactor : ℝ := Real.sqrt 252

/-- Modelled from the spec: Sharpe ratio, annualized, with the
zero-variance degenerate case reported as the explicit undefined
sentinel `none` rather than a number. -/
noncomputable def sharpeOf (rf : ℝ) (r : List ℝ) : Option ℝ :=
  if stdevR r = 0 then none else some ((meanR r - rf) / stdevR r * annFactor)

/-- Modelled from the spec: downside deviation, the standard deviation
of the negative returns only. -/
noncomputable def downsideDev (r : List ℝ) : ℝ :=
  stdevR (r.filter (fun x => decide (x < 0)))

/-- Modelled from the spec: Sortino ratio with downside deviation in
the denominator, undefined when that deviation is zero. -/
noncomputable def sortinoOf (rf : ℝ) (r : List ℝ) : Option ℝ :=
  if downsideDev r = 0 then none
  else some ((meanR r - rf) / downsideDev r * annFactor)

/-- Running maximum-drawdown accumulator: walks the price curve
keeping the running peak and the largest peak-to-trough fraction seen
so far. -/
noncomputable def ddAux : List ℝ → ℝ → ℝ → ℝ
  | [], _, m => m
  | p :: rest, peak, m =>
    ddAux rest (max peak p) (max m ((max peak p - p) / max peak p))

/-- Modelled from the spec: maximum drawdown, the largest
peak-to-trough decline of the price curve expressed as a fraction of
the peak. -/
noncomputable def maxDrawdown : List ℝ → ℝ
  | [] => 0
  | p :: rest => ddAux rest p 0

/-- Modelled from the spec: Calmar ratio, annualized return over the
absolute maximum drawdown, undefined when the drawdown is zero. -/
noncomputable def calmarOf (r : List ℝ) (prices : List ℝ) : Option ℝ :=
  if maxDrawdown prices = 0 then none
  else some ((meanR r * 252) / |maxDrawdown prices|)

/-- Modelled from the spec: Value at Risk at confidence level `c`, the
`(100−c)`-th empirical percentile of the return distribution. -/
noncomputable def varLevel (c : ℚ) (r : List ℝ) : ℝ := percentile (100 - c) r

/-- Modelled from the spec: Conditional VaR, the mean of the returns
at or below the VaR threshold. -/
noncomputable def cvarLevel (c : ℚ) (r : List ℝ) : ℝ :=
  meanR (r.filter (fun x => decide (x ≤ varLevel c r)))

/-- The flat bundle of named scalar statistics served by the metrics
endpoint; ratio metrics carry an explicit undefined sentinel. -/
structure MetricsBundle where
  volatility : ℝ
  sharpe : Option ℝ
  sortino : Option ℝ
  var95 : ℝ
  cvar95 : ℝ
  max_drawdown : ℝ
  calmar : Option ℝ

/-- Modelled from the spec: the metrics bundle computed from the log
returns of the input price series. -/
noncomputable def computeMetrics (rf : ℝ) (prices : List ℝ) : MetricsBundle :=
  { volatility := stdevR (logReturns prices) * annFactor
    sharpe := sharpeOf rf (logReturns prices)
    sortino := sortinoOf rf (logReturns prices)
    var95 := varLevel 95 (logReturns prices)
    cvar95 := cvarLevel 95 (logReturns prices)
    max_drawdown := maxDrawdown prices
    calmar := calmarOf (logReturns prices) prices }

/-- Engine configuration: number of paths, horizon in trading days,
confidence level to report.  Counts are integers so that non-positive
values can be presented and rejected. -/
structure SimConfig where
  numPaths : ℤ
  horizon : ℤ
  confidence : ℚ

/-- Validation failures rejected at the engine's entry. -/
inductive EngineError where
  | insufficientData
  | invalidConfig

/-- Modelled from the spec: the engine entry point, validating the
input series and configuration before any computation, then returning
the simulation result and the metrics bundle. -/
noncomputable def runEngine (cfg : SimConfig) (Z : ℕ → ℕ → ℝ) (prices : List ℝ) :
    Except EngineError (SimResult × MetricsBundle) :=
  if prices.length < 2 then .error .insufficientData
  else if cfg.numPaths ≤ 0 ∨ cfg.horizon ≤ 0 then .error .invalidConfig
  else .ok (simulate prices Z cfg.numPaths.toNat cfg.horizon.toNat cfg.confidence,
            computeMetrics 0 prices)

/-- A linear congruential step, standing in for the seeded
pseudo-random generator of the numeric library. -/
def lcg (s : ℕ) : ℕ := (1103515245 * s + 12345) % 2 ^ 31

/-- Modelled from the spec: the deterministic stream of draws a seeded
generator supplies for path `i`, step `t` (the distributional shape of
the draws is irrelevant to the determinism property). -/
noncomputable def seedNormals (seed : ℕ) (i t : ℕ) : ℝ :=
  (lcg (seed + 31 * i + 97 * t) : ℝ) / 2 ^ 31 - 1 / 2

/-- Modelled from the spec: a full engine run with the draws supplied
by the seeded generator. -/
noncomputable def runEngineSeeded (seed : ℕ) (cfg : SimConfig) (prices : List ℝ) :
    Except EngineError (SimResult × MetricsBundle) :=
  runEngine cfg (seedNormals seed) prices

/-- The four pieces of component state held by the dashboard page
(`frontend/src/pages/index.js`): current price, historical series,
metrics bundle, Monte Carlo result. -/
structure DashboardState (α β γ δ : Type) where
  currentPrice : Option α
  historicalData : List β
  metrics : Option γ
  monteCarlo : Option δ

/-- `Promise.all` over the four API requests: resolves with all four
payloads, or rejects with the first failure. -/
def promiseAll4 {ε α β γ δ : Type} :
    Except ε α → Except ε β → Except ε γ → Except ε δ → Except ε (α × β × γ × δ)
  | .error e, _, _, _ => .error e
  | .ok _, .error e, _, _ => .error e
  | .ok _, .ok _, .error e, _ => .error e
  | .ok _, .ok _, .ok _, .error e => .error e
  | .ok a, .ok b, .ok c, .ok d => .ok (a, b, c, d)

/-- The dashboard's `fetchData`: awaits all four requests, then
applies the four `setState` calls; a rejection is caught and leaves
the component state untouched. -/
def fetchData {ε α β γ δ : Type} (st : DashboardState α β γ δ)
    (priceRes : Except ε α) (histRes : Except ε (List β))
    (metricsRes : Except ε γ) (mcRes : Except ε δ) : DashboardState α β γ δ :=
  match promiseAll4 priceRes histRes metricsRes mcRes with
  | .ok (p, h, m, mc) =>
    { currentPrice := some p, historicalData := h, metrics := some m, monteCarlo := some mc }
  | .error _ => st

/-- A concrete input series `[1, e, 1]` whose log returns are `[1, -1]`,
giving drift 0 and volatility 1. -/
noncomputable def cexPrices : List ℝ := [1, Real.exp 1, 1]

/-- A concrete draw stream: path 0 receives a large draw, all other
paths a draw that cancels the bias-correction term exactly. -/
noncomputable def cexZ : ℕ → ℕ → ℝ :=
  fun i _ => if i = 0 then 1 / 2 + Real.log 1000 else 1 / 2

end TslaMC

namespace TslaMC

lemma length_sortR (l : List ℝ) : (sortR l).length = l.length :=
  List.length_insertionSort _ l

lemma pIndex_lt (q : ℚ) {n : ℕ} (hn : 0 < n) : pIndex q n < n := by
  have h := Nat.min_le_left (n - 1) ((⌈q * n / 100⌉).toNat - 1)
  unfold pIndex
  omega

lemma pIndex_mono (q1 q2 : ℚ) (n : ℕ) (h : q1 ≤ q2) : pIndex q1 n ≤ pIndex q2 n := by
  unfold pIndex
  refine min_le_min le_rfl (Nat.sub_le_sub_right (Int.toNat_le_toNat ?_) 1)
  apply Int.ceil_le_ceil
  gcongr

lemma percentile_mem (q : ℚ) {l : List ℝ} (hl : l ≠ []) : percentile q l ∈ l := by
  have hn : 0 < l.length := List.length_pos.mpr hl
  have hidx : pIndex q l.length < (sortR l).length := by
    rw [length_sortR]; exact pIndex_lt q hn
  rw [percentile, List.getD_eq_getElem _ _ hidx]
  exact (List.perm_insertionSort (· ≤ ·) l).subset (List.getElem_mem hidx)

lemma percentile_mono {l : List ℝ} (q1 q2 : ℚ) (hq : q1 ≤ q2) (hl : l ≠ []) :
    percentile q1 l ≤ percentile q2 l := by
  have hn : 0 < l.length := List.length_pos.mpr hl
  have h1 : pIndex q1 l.length < (sortR l).length := by
    rw [length_sortR]; exact pIndex_lt _ hn
  have h2 : pIndex q2 l.length < (sortR l).length := by
    rw [length_sortR]; exact pIndex_lt _ hn
  rw [percentile, percentile, List.getD_eq_getElem _ _ h1, List.getD_eq_getElem _ _ h2]
  have hs : List.Sorted (· ≤ ·) (sortR l) := List.sorted_insertionSort _ l
  have := hs.rel_get_of_le (a := ⟨pIndex q1 l.length, h1⟩) (b := ⟨pIndex q2 l.length, h2⟩)
    (by exact Fin.mk_le_mk.mpr (pIndex_mono _ _ _ hq))
  simpa using this

lemma simPaths_getD (prices : List ℝ) (Z : ℕ → ℕ → ℝ) (N T i : ℕ) (hi : i < N) :
    (simPaths prices Z N T).getD i [] =
      simPath (lastPrice prices) (drift prices) (volatility prices) (Z i) T := by
  rw [simPaths, List.getD_eq_getElem _ _ (by simpa using hi)]
  simp

lemma simPath_getD (s0 dr vol : ℝ) (z : ℕ → ℝ) (T t : ℕ) (ht : t < T) :
    (simPath s0 dr vol z T).getD t 0 = pathPrice s0 dr vol z (t + 1) := by
  rw [simPath, List.getD_eq_getElem _ _ (by simpa using ht)]
  simp

lemma zipWith_cons_replicate (f : ℝ → ℝ → ℝ) (c : ℝ) :
    ∀ n, List.zipWith f (c :: List.replicate n c) (List.replicate n c) =
      List.replicate n (f c c)
  | 0 => by simp
  | n + 1 => by
    conv_lhs => rw [List.replicate_succ]
    rw [List.zipWith_cons_cons, zipWith_cons_replicate f c n, ← List.replicate_succ]

lemma logReturns_replicate (n : ℕ) (c : ℝ) :
    logReturns (List.replicate n c) = List.replicate (n - 1) 0 := by
  cases n with
  | zero => simp [logReturns]
  | succ m =>
    rw [logReturns, List.replicate_succ, List.tail_cons, zipWith_cons_replicate]
    have hc : Real.log (c / c) = 0 := by
      rcases eq_or_ne c 0 with h | h
      · simp [h]
      · rw [div_self h, Real.log_one]
    simp [hc]

lemma meanR_replicate_zero (m : ℕ) : meanR (List.replicate m 0) = 0 := by
  simp [meanR, List.sum_replicate]

lemma stdevR_replicate_zero (m : ℕ) : stdevR (List.replicate m 0) = 0 := by
  rw [stdevR]
  have h : popVariance (List.replicate m 0) = 0 := by
    rw [popVariance, meanR_replicate_zero]
    simp [List.map_replicate, meanR_replicate_zero]
  rw [h, Real.sqrt_zero]

lemma ddAux_replicate (m : ℕ) (c : ℝ) : ddAux (List.replicate m c) c 0 = 0 := by
  induction m with
  | zero => simp [ddAux]
  | succ k ih =>
    rw [List.replicate_succ, ddAux]
    simpa using ih

lemma sorted_replicate (n : ℕ) (a : ℝ) :
    List.Sorted (· ≤ ·) (List.replicate n a) :=
  List.pairwise_replicate.mpr (Or.inr le_rfl)

lemma orderedInsert_big (a b : ℝ) (h : ¬ a ≤ b) :
    ∀ n, List.orderedInsert (· ≤ ·) a (List.replicate n b) = List.replicate n b ++ [a]
  | 0 => by simp
  | n + 1 => by
    rw [List.replicate_succ, List.orderedInsert, if_neg h, orderedInsert_big a b h n]
    simp [List.replicate_succ]

lemma cex_logReturns : logReturns cexPrices = [1, -1] := by
  rw [cexPrices, logReturns]
  simp [Real.log_exp, Real.log_inv]

lemma cex_drift : drift cexPrices = 0 := by
  rw [drift, cex_logReturns]
  norm_num [meanR]

lemma cex_meanR : meanR [(1 : ℝ), -1] = 0 := by norm_num [meanR]

lemma cex_vol : volatility cexPrices = 1 := by
  rw [volatility, cex_logReturns, stdevR]
  have h : popVariance [(1 : ℝ), -1] = 1 := by
    rw [popVariance, cex_meanR]
    norm_num [meanR]
  rw [h, Real.sqrt_one]

lemma cex_last : lastPrice cexPrices = 1 := by
  simp [lastPrice, cexPrices]

lemma cex_pathVal (i : ℕ) :
    (simPath (lastPrice cexPrices) (drift cexPrices) (volatility cexPrices)
      (cexZ i) 1).getD 0 0 = if i = 0 then 1000 else 1 := by
  rw [cex_drift, cex_vol, cex_last, simPath]
  have hr : List.range 1 = [0] := by simp [List.range_succ]
  rw [hr]
  simp only [List.map_cons, List.map_nil, List.getD_cons_zero]
  rw [pathPrice, pathPrice, gbmStep, cexZ]
  rcases eq_or_ne i 0 with h | h
  · rw [if_pos h, if_pos h]
    have harg : (0 - 1 ^ 2 / 2 : ℝ) + 1 * (1 / 2 + Real.log 1000) = Real.log 1000 := by
      ring
    rw [harg, Real.exp_log (by norm_num), one_mul]
  · rw [if_neg h, if_neg h]
    have harg : (0 - 1 ^ 2 / 2 : ℝ) + 1 * (1 / 2) = 0 := by ring
    rw [harg, Real.exp_zero, one_mul]

lemma cex_vals :
    stepValues (simPaths cexPrices cexZ 100 1) 0 = 1000 :: List.replicate 99 1 := by
  rw [stepValues, simPaths, List.map_map]
  have h : ∀ i ∈ List.range 100,
      ((fun p => List.getD p 0 0) ∘
        fun i => simPath (lastPrice cexPrices) (drift cexPrices) (volatility cexPrices)
          (cexZ i) 1) i =
      (fun i : ℕ => if i = 0 then (1000 : ℝ) else 1) i := by
    intro i _
    exact cex_pathVal i
  rw [List.map_congr_left h, List.range_succ_eq_map, List.map_cons, if_pos rfl,
    List.map_map]
  have h2 : ∀ i ∈ List.range 99,
      ((fun i : ℕ => if i = 0 then (1000 : ℝ) else 1) ∘ Nat.succ) i =
        (fun _ : ℕ => (1 : ℝ)) i := by
    intro i _
    simp
  rw [List.map_congr_left h2, List.map_const', List.length_range]

lemma cex_pIndex : pIndex ((100 + 95) / 2) 100 = 97 := by
  have h : ((100 + 95 : ℚ) / 2) * (100 : ℕ) / 100 = 195 / 2 := by norm_num
  have hc : ⌈(195 / 2 : ℚ)⌉ = 98 := by
    rw [Int.ceil_eq_iff]
    norm_num
  rw [pIndex, h, hc]
  norm_num
  decide

lemma cex_sorted :
    sortR (1000 :: List.replicate 99 1) = List.replicate 99 (1 : ℝ) ++ [1000] := by
  rw [sortR, List.insertionSort, (sorted_replicate 99 1).insertionSort_eq,
    orderedInsert_big 1000 1 (by norm_num) 99]

lemma cex_upper_val :
    percentile ((100 + 95) / 2) (1000 :: List.replicate 99 1) = 1 := by
  have hlen : (1000 :: List.replicate 99 (1 : ℝ)).length = 100 := by simp
  rw [percentile, hlen, cex_pIndex, cex_sorted,
    List.getD_append _ _ _ 97 (by simp),
    List.getD_eq_getElem _ _ (by simp : (97 : ℕ) < (List.replicate 99 (1 : ℝ)).length),
    List.getElem_replicate]

lemma cex_mean_val : meanR (1000 :: List.replicate 99 1) = 1099 / 100 := by
  rw [meanR]
  simp [List.sum_replicate]
  norm_num

lemma drift_two_point : drift [100, 105] = Real.log 1.05 := by
  have h : logReturns [100, 105] = [Real.log (105 / 100)] := by simp [logReturns]
  rw [drift, h]
  norm_num [meanR]

lemma volatility_two_point : volatility [100, 105] = 0 := by
  have h : logReturns [100, 105] = [Real.log (105 / 100)] := by simp [logReturns]
  rw [volatility, h, stdevR]
  have h2 : popVariance [Real.log (105 / 100)] = 0 := by
    simp [popVariance, meanR]
  rw [h2, Real.sqrt_zero]

/-- Claim C1: each of the `N` simulated paths has `T` steps generated by
the discretized GBM recursion `P_t = P_{t-1} * exp ((drift − volatility²/2)
+ volatility · Z_t)`, with a separate draw per step and per path, and each
path starts from the last observed price of the input series (its first
element is one GBM step from that price). -/
theorem sim_path_gbm_recursion (prices : List ℝ) (Z : ℕ → ℕ → ℝ) (N T i t : ℕ)
    (hi : i < N) (ht : t + 1 < T) :
    (simPaths prices Z N T).length = N ∧
    ((simPaths prices Z N T).getD i []).length = T ∧
    ((simPaths prices Z N T).getD i []).getD 0 0 =
      lastPrice prices *
        Real.exp ((drift prices - volatility prices ^ 2 / 2) +
          volatility prices * Z i 0) ∧
    ((simPaths prices Z N T).getD i []).getD (t + 1) 0 =
      ((simPaths prices Z N T).getD i []).getD t 0 *
        Real.exp ((drift prices - volatility prices ^ 2 / 2) +
          volatility prices * Z i (t + 1)) := by
  refine ⟨by simp [simPaths], ?_, ?_, ?_⟩
  · rw [simPaths_getD _ _ _ _ _ hi]; simp [simPath]
  · rw [simPaths_getD _ _ _ _ _ hi, simPath_getD _ _ _ _ _ _ (by omega : 0 < T)]
    simp [pathPrice, gbmStep]
  · rw [simPaths_getD _ _ _ _ _ hi, simPath_getD _ _ _ _ _ _ ht,
      simPath_getD _ _ _ _ _ _ (by omega : t < T)]
    simp only [pathPrice, gbmStep]

/-- Witness for C1 at `prices = [1, 1]`, a zero draw stream, `N = 1`,
`T = 2`, path 0, step 0. -/
theorem sim_path_gbm_recursion_witness :
    (simPaths [1, 1] (fun _ _ => 0) 1 2).length = 1 ∧
    ((simPaths [1, 1] (fun _ _ => 0) 1 2).getD 0 []).length = 2 ∧
    ((simPaths [1, 1] (fun _ _ => 0) 1 2).getD 0 []).getD 0 0 =
      lastPrice [1, 1] *
        Real.exp ((drift [1, 1] - volatility [1, 1] ^ 2 / 2) + volatility [1, 1] * 0) ∧
    ((simPaths [1, 1] (fun _ _ => 0) 1 2).getD 0 []).getD 1 0 =
      ((simPaths [1, 1] (fun _ _ => 0) 1 2).getD 0 []).getD 0 0 *
        Real.exp ((drift [1, 1] - volatility [1, 1] ^ 2 / 2) + volatility [1, 1] * 0) :=
  sim_path_gbm_recursion [1, 1] (fun _ _ => 0) 1 2 0 0 (by decide) (by decide)

/-- Claim C2 (amended): for any valid series and configuration with
`N ≥ 100` paths and a nonnegative confidence level, the mean path and
both confidence bounds have exactly `T` elements and the bounds satisfy
`lower[i] ≤ upper[i]` at every step.  (The claim's further assertion
that the mean lies within the percentile bounds is false; see the
counterexample.) -/
theorem sim_result_shape_and_bound_order (prices : List ℝ) (Z : ℕ → ℕ → ℝ)
    (N T : ℕ) (conf : ℚ) (hN : 100 ≤ N) (hc : 0 ≤ conf) :
    (simulate prices Z N T conf).mean_path.length = T ∧
    (simulate prices Z N T conf).lower.length = T ∧
    (simulate prices Z N T conf).upper.length = T ∧
    ∀ i, i < T →
      (simulate prices Z N T conf).lower.getD i 0 ≤
        (simulate prices Z N T conf).upper.getD i 0 := by
  refine ⟨by simp [simulate, aggregate], by simp [simulate, aggregate],
    by simp [simulate, aggregate], ?_⟩
  intro i hi
  have hlow : (simulate prices Z N T conf).lower.getD i 0 =
      percentile ((100 - conf) / 2) (stepValues (simPaths prices Z N T) i) := by
    rw [simulate, aggregate]
    rw [List.getD_eq_getElem _ _ (by simpa using hi)]
    simp
  have hup : (simulate prices Z N T conf).upper.getD i 0 =
      percentile ((100 + conf) / 2) (stepValues (simPaths prices Z N T) i) := by
    rw [simulate, aggregate]
    rw [List.getD_eq_getElem _ _ (by simpa using hi)]
    simp
  rw [hlow, hup]
  apply percentile_mono
  · linarith
  · have hlen : (stepValues (simPaths prices Z N T) i).length = N := by
      simp [stepValues, simPaths]
    intro hcon
    rw [hcon] at hlen
    simp at hlen
    omega

/-- Witness for the amended C2 at `prices = [1, 1]`, zero draws,
`N = 100`, `T = 1`, 95% confidence. -/
theorem sim_result_shape_and_bound_order_witness :
    (simulate [1, 1] (fun _ _ => 0) 100 1 95).mean_path.length = 1 ∧
    (simulate [1, 1] (fun _ _ => 0) 100 1 95).lower.length = 1 ∧
    (simulate [1, 1] (fun _ _ => 0) 100 1 95).upper.length = 1 ∧
    ∀ i, i < 1 →
      (simulate [1, 1] (fun _ _ => 0) 100 1 95).lower.getD i 0 ≤
        (simulate [1, 1] (fun _ _ => 0) 100 1 95).upper.getD i 0 :=
  sim_result_shape_and_bound_order [1, 1] (fun _ _ => 0) 100 1 95 (by decide)
    (by norm_num)

/-- Counterexample to C2 as stated: with `N = 100 ≥ 100` paths over the
series `[1, e, 1]` and the explicit draw stream `cexZ`, the mean of the
cross-path distribution at step 0 is `10.99` while the 97.5th-percentile
upper bound is `1`, so `mean[0] ≤ upper[0]` fails. -/
theorem sim_mean_exceeds_upper_cex :
    ¬ ((simulate cexPrices cexZ 100 1 95).mean_path.getD 0 0 ≤
        (simulate cexPrices cexZ 100 1 95).upper.getD 0 0) := by
  have hr : List.range 1 = [0] := by simp [List.range_succ]
  have hm : (simulate cexPrices cexZ 100 1 95).mean_path.getD 0 0 =
      meanR (stepValues (simPaths cexPrices cexZ 100 1) 0) := by
    rw [simulate, aggregate, hr]
    simp only [List.map_cons, List.map_nil, List.getD_cons_zero]
  have hu : (simulate cexPrices cexZ 100 1 95).upper.getD 0 0 =
      percentile ((100 + 95) / 2) (stepValues (simPaths cexPrices cexZ 100 1) 0) := by
    rw [simulate, aggregate, hr]
    simp only [List.map_cons, List.map_nil, List.getD_cons_zero]
  rw [hm, hu, cex_vals, cex_mean_val, cex_upper_val]
  norm_num

/-- Claim C3: for every price series of length at least 2, the return
series consists of the per-period log returns `ln (P_{t+1} / P_t)`, has
length one less than the price series, and drift and volatility are the
mean and the (population) standard deviation of those returns. -/
theorem log_returns_drift_vol_spec (prices : List ℝ) (h : 2 ≤ prices.length) :
    (logReturns prices).length = prices.length - 1 ∧
    (∀ t, t < prices.length - 1 →
      (logReturns prices).getD t 0 =
        Real.log (prices.getD (t + 1) 0 / prices.getD t 0)) ∧
    drift prices = meanR (logReturns prices) ∧
    volatility prices = Real.sqrt (popVariance (logReturns prices)) := by
  refine ⟨by simp [logReturns], ?_, rfl, rfl⟩
  intro t ht
  have hlen : (logReturns prices).length = prices.length - 1 := by simp [logReturns]
  have ht1 : t < prices.length := by omega
  have ht2 : t + 1 < prices.length := by omega
  rw [List.getD_eq_getElem _ _ (by omega : t < (logReturns prices).length),
    List.getD_eq_getElem _ _ ht2, List.getD_eq_getElem _ _ ht1]
  simp [logReturns]

/-- Witness for C3 at the two-point series `[100, 105]`. -/
theorem log_returns_drift_vol_spec_witness :
    (logReturns [100, 105]).length = 1 ∧
    (∀ t, t < 1 →
      (logReturns [100, 105]).getD t 0 =
        Real.log (([100, 105] : List ℝ).getD (t + 1) 0 / ([100, 105] : List ℝ).getD t 0)) ∧
    drift [100, 105] = meanR (logReturns [100, 105]) ∧
    volatility [100, 105] = Real.sqrt (popVariance (logReturns [100, 105])) :=
  log_returns_drift_vol_spec [100, 105] (by simp)

/-- Claim C4: on every constant price series (of length at least 2) the
metrics computation reports Sharpe, Sortino and Calmar as the explicit
undefined sentinel `none` — it is a total function that returns the
bundle rather than throwing, and the sentinel is not an ordinary
number. -/
theorem constant_series_ratio_sentinels (rf c : ℝ) (n : ℕ) (h : 2 ≤ n) :
    (computeMetrics rf (List.replicate n c)).sharpe = none ∧
    (computeMetrics rf (List.replicate n c)).sortino = none ∧
    (computeMetrics rf (List.replicate n c)).calmar = none := by
  have hlr : logReturns (List.replicate n c) = List.replicate (n - 1) 0 :=
    logReturns_replicate n c
  have hdd : downsideDev (List.replicate (n - 1) (0 : ℝ)) = 0 := by
    rw [downsideDev]
    have hf : (List.replicate (n - 1) (0 : ℝ)).filter (fun x => decide (x < 0)) = [] := by
      simp [List.filter_replicate]
    rw [hf]
    simpa using stdevR_replicate_zero 0
  have hmd : maxDrawdown (List.replicate n c) = 0 := by
    obtain ⟨m, rfl⟩ : ∃ m, n = m + 1 := ⟨n - 1, by omega⟩
    rw [List.replicate_succ]
    show ddAux (List.replicate m c) c 0 = 0
    exact ddAux_replicate m c
  refine ⟨?_, ?_, ?_⟩
  · show sharpeOf rf (logReturns (List.replicate n c)) = none
    rw [hlr, sharpeOf, if_pos (stdevR_replicate_zero _)]
  · show sortinoOf rf (logReturns (List.replicate n c)) = none
    rw [hlr, sortinoOf, if_pos hdd]
  · show calmarOf (logReturns (List.replicate n c)) (List.replicate n c) = none
    rw [calmarOf, if_pos hmd]

/-- Witness for C4 at the constant series `[100, 100, 100, 100]`. -/
theorem constant_series_ratio_sentinels_witness :
    (computeMetrics 0 [100, 100, 100, 100]).sharpe = none ∧
    (computeMetrics 0 [100, 100, 100, 100]).sortino = none ∧
    (computeMetrics 0 [100, 100, 100, 100]).calmar = none :=
  constant_series_ratio_sentinels 0 100 4 (by decide)

/-- Claim C5: the engine rejects an empty or single-point price series,
and a non-positive path count or horizon, with a validation error at
entry instead of producing a simulation result or metrics. -/
theorem engine_rejects_invalid_input (cfg : SimConfig) (Z : ℕ → ℕ → ℝ)
    (prices : List ℝ)
    (h : prices.length < 2 ∨ cfg.numPaths ≤ 0 ∨ cfg.horizon ≤ 0) :
    ∃ e, runEngine cfg Z prices = .error e := by
  by_cases h2 : prices.length < 2
  · exact ⟨.insufficientData, by rw [runEngine, if_pos h2]⟩
  · have h3 : cfg.numPaths ≤ 0 ∨ cfg.horizon ≤ 0 := by tauto
    exact ⟨.invalidConfig, by rw [runEngine, if_neg h2, if_pos h3]⟩

/-- Witness for C5 at the empty price series. -/
theorem engine_rejects_invalid_input_witness :
    ∃ e, runEngine (SimConfig.mk 100 30 95) (fun _ _ => 0) [] = .error e :=
  engine_rejects_invalid_input (SimConfig.mk 100 30 95) (fun _ _ => 0) []
    (Or.inl (by simp))

/-- Claim C6: with the same seed, price series and configuration, two
engine runs produce identical results (the simulation is a pure,
deterministic function of the seed and the inputs). -/
theorem engine_deterministic_given_seed (s1 s2 : ℕ) (cfg : SimConfig)
    (prices : List ℝ) (h : s1 = s2) :
    runEngineSeeded s1 cfg prices = runEngineSeeded s2 cfg prices := by
  rw [h]

/-- Witness for C6 at seed 42. -/
theorem engine_deterministic_given_seed_witness :
    runEngineSeeded 42 (SimConfig.mk 500 30 95) [100, 105] =
      runEngineSeeded 42 (SimConfig.mk 500 30 95) [100, 105] :=
  engine_deterministic_given_seed 42 42 (SimConfig.mk 500 30 95) [100, 105] rfl

/-- Claim C7: for every nonempty return series, VaR at 95% confidence
is the 5th percentile of the sorted empirical sample (in particular an
element of the sample), and CVaR is the mean of the returns at or below
the VaR threshold. -/
theorem var_cvar_empirical (r : List ℝ) (h : r ≠ []) :
    varLevel 95 r = (sortR r).getD (pIndex 5 r.length) 0 ∧
    varLevel 95 r ∈ r ∧
    cvarLevel 95 r = meanR (r.filter (fun x => decide (x ≤ varLevel 95 r))) := by
  have h5 : (100 - 95 : ℚ) = 5 := by norm_num
  refine ⟨by rw [varLevel, h5, percentile], ?_, rfl⟩
  rw [varLevel, h5]
  exact percentile_mem 5 h

/-- Witness for C7 at the one-element return sample `[0]`. -/
theorem var_cvar_empirical_witness :
    varLevel 95 [0] = (sortR [0]).getD (pIndex 5 1) 0 ∧
    varLevel 95 [0] ∈ [(0 : ℝ)] ∧
    cvarLevel 95 [0] =
      meanR (([0] : List ℝ).filter (fun x => decide (x ≤ varLevel 95 [0]))) :=
  var_cvar_empirical [0] (by simp)

/-- Claim C8: maximum drawdown is the largest peak-to-trough decline of
the price curve as a fraction of the peak; on `[100, 120, 90, 110]` it
equals `(120 − 90) / 120 = 0.25`. -/
theorem max_drawdown_peak_trough :
    maxDrawdown [100, 120, 90, 110] = (120 - 90) / 120 ∧
    maxDrawdown [100, 120, 90, 110] = 1 / 4 := by
  norm_num [maxDrawdown, ddAux, max_def]

/-- Claim C9 (amended): on the two-point series `[100, 105]` the drift
estimate equals `ln 1.05` and the volatility estimate equals 0 — the
single-return series has zero variance, the degenerate-case convention
the spec itself documents, so the volatility does not exceed zero. -/
theorem two_point_drift_vol :
    drift [100, 105] = Real.log 1.05 ∧ volatility [100, 105] = 0 :=
  ⟨drift_two_point, volatility_two_point⟩

/-- Counterexample to C9 as stated: the volatility of `[100, 105]` is 0,
not positive. -/
theorem two_point_volatility_cex :
    ¬ (drift [100, 105] = Real.log 1.05 ∧ 0 < volatility [100, 105]) := by
  intro hc
  have h := hc.2
  rw [volatility_two_point] at h
  exact lt_irrefl 0 h

/-- Claim C10: the dashboard's polling `fetchData` applies the four API
responses to component state all-or-nothing — if any one of the four
requests fails, `Promise.all` rejects, the error is caught, and none of
the four state values is updated. -/
theorem fetch_data_all_or_nothing {ε α β γ δ : Type} (st : DashboardState α β γ δ)
    (priceRes : Except ε α) (histRes : Except ε (List β))
    (metricsRes : Except ε γ) (mcRes : Except ε δ)
    (h : (∃ e, priceRes = .error e) ∨ (∃ e, histRes = .error e) ∨
      (∃ e, metricsRes = .error e) ∨ (∃ e, mcRes = .error e)) :
    fetchData st priceRes histRes metricsRes mcRes = st := by
  cases priceRes <;> cases histRes <;> cases metricsRes <;> cases mcRes <;>
    simp_all [fetchData, promiseAll4]

/-- Witness for C10: the price request fails, the other three succeed,
and the previously displayed state is unchanged. -/
theorem fetch_data_all_or_nothing_witness :
    fetchData (DashboardState.mk (some 1) [2] (some 3) (some 4))
      (Except.error (0 : ℕ)) (Except.ok [5]) (Except.ok 6) (Except.ok 7) =
      DashboardState.mk (some 1) [2] (some 3) (some 4) :=
  fetch_data_all_or_nothing (DashboardState.mk (some 1) [2] (some 3) (some 4))
    (Except.error (0 : ℕ)) (Except.ok [5]) (Except.ok 6) (Except.ok 7)
    (Or.inl ⟨0, rfl⟩)

end TslaMC
